import Mathlib

/-!
Verification of the notification-dispatch module
`frappe_whatsapp/doctype/whatsapp_notification/whatsapp_notification.py`.

Strings are modelled as `List Char`.  Python truthiness of optional
configuration strings is modelled with `Option` (`none` = falsy).
Host-framework (frappe) helpers that the module calls are modelled from
their documented behaviour and marked as such in their doc comments.
-/

namespace FrappeWhatsapp

/-- Embeds `WhatsAppNotification.format_number` (lines 453-458):
if the number starts with a plus sign, drop the first character
(`number[1:len(number)]`), otherwise return the number unchanged. -/
def format_number (number : List Char) : List Char :=
  if number.take 1 = ['+'] then number.drop 1 else number

/-! ## Scheduler query window (`get_documents_for_today`, lines 460-479) -/

/-- A point in time at the one-second granularity used by the query
bounds of `get_documents_for_today` (the bounds are `00:00:00.000000`
and `23:59:59.000000` of the reference day): a day number plus a
second-of-day below 86400. -/
structure Moment where
  day : Int
  sec : Nat
  sec_lt : sec < 86400

/-- Lexicographic order on (day, second-of-day) timestamps, as the
database compares the datetime filters of `get_documents_for_today`. -/
def tsLe (a b : Int × Nat) : Prop :=
  a.1 < b.1 ∨ (a.1 = b.1 ∧ a.2 ≤ b.2)

/-- Embeds the reference-date computation of `get_documents_for_today`
(lines 464-468): `diff_days = days_in_advance`, negated when the event
is "Days After", and `reference_date = add_to_date(nowdate(), days=diff_days)`. -/
def referenceDay (today : Int) (days_in_advance : Int) (isDaysAfter : Bool) : Int :=
  today + (if isDaysAfter then -days_in_advance else days_in_advance)

/-- Embeds the record filter of `get_documents_for_today` (lines 469-478):
the configured date field must be at or after `reference_date 00:00:00`
and at or before `reference_date 23:59:59`. -/
def inQueryWindow (today : Int) (days_in_advance : Int) (isDaysAfter : Bool)
    (m : Moment) : Prop :=
  tsLe (referenceDay today days_in_advance isDaysAfter, 0) (m.day, m.sec) ∧
  tsLe (m.day, m.sec) (referenceDay today days_in_advance isDaysAfter, 86399)

/-! ## Decimal digits and the placeholder strings -/

/-- Decimal digit character (the characters produced by Python's
`str(i)` for the f-string placeholder). -/
def digChar (n : Nat) : Char :=
  if n = 0 then '0' else if n = 1 then '1' else if n = 2 then '2'
  else if n = 3 then '3' else if n = 4 then '4' else if n = 5 then '5'
  else if n = 6 then '6' else if n = 7 then '7' else if n = 8 then '8'
  else '9'

/-- Fuel-indexed helper for `natDigits`; the fuel only drives
structural recursion and is always sufficient when called through
`natDigits`. -/
def natDigitsAux : Nat → Nat → List Char
  | 0, _ => []
  | fuel + 1, n =>
    if n < 10 then [digChar n]
    else natDigitsAux fuel (n / 10) ++ [digChar (n % 10)]

/-- Decimal representation of a natural number, most significant digit
first, as produced by Python's `str(i)`. -/
def natDigits (n : Nat) : List Char :=
  natDigitsAux (n + 1) n

/-- The literal placeholder string built by the f-string
`f"\x7b\x7b\x7b\x7b\x7b i \x7d\x7d\x7d\x7d\x7d"` in
`send_template_message` line 144: two opening braces, the decimal
digits of `i`, two closing braces. -/
def phStr (i : Nat) : List Char :=
  '{' :: '{' :: (natDigits i ++ ['}', '}'])

/-- Numeric value of a digit string (used to show `natDigits` is
injective and to model `frappe.utils.cint`). -/
def digitsVal (s : List Char) : Nat :=
  s.foldl (fun a c => 10 * a + (c.toNat - 48)) 0

/-- A character is a decimal digit. -/
def isDig (c : Char) : Prop := 48 ≤ c.toNat ∧ c.toNat ≤ 57

instance (c : Char) : Decidable (isDig c) := by unfold isDig; infer_instance

/-- Models the host helper `frappe.utils.cint` on the strings relevant
here: an optional sign followed by decimal digits parses to its integer
value, anything else coerces to 0. -/
def cint (s : List Char) : Int :=
  match s with
  | '-' :: rest =>
      if rest ≠ [] ∧ ∀ c ∈ rest, isDig c then -(digitsVal rest : Int) else 0
  | '+' :: rest =>
      if rest ≠ [] ∧ ∀ c ∈ rest, isDig c then (digitsVal rest : Int) else 0
  | _ =>
      if s ≠ [] ∧ ∀ c ∈ s, isDig c then (digitsVal s : Int) else 0

/-! ## Python `str.replace`, modelled on character lists -/

/-- Embeds Python's `str.replace(pat, rep)` for a non-empty pattern:
scan left to right, replace each non-overlapping occurrence of `pat`
with `rep`, and continue scanning after the replaced occurrence (the
inserted replacement text is not rescanned).  An empty pattern leaves
the string unchanged (the patterns used by the module are never empty). -/
def repAux (pat rep : List Char) : List Char → Nat → List Char
  | [], _ => []
  | _ :: rest, skip + 1 => repAux pat rep rest skip
  | c :: rest, 0 =>
    if pat <+: (c :: rest) ∧ pat ≠ [] then
      rep ++ repAux pat rep rest (pat.length - 1)
    else
      c :: repAux pat rep rest 0

/-- Embeds Python's `str.replace(pat, rep)` for a non-empty pattern:
scan left to right, replace each non-overlapping occurrence of `pat`
with `rep`, and continue scanning after the replaced occurrence (the
inserted replacement text is not rescanned).  `repAux`'s skip counter
carries "characters still belonging to the last matched occurrence". -/
def replaceAll (pat rep s : List Char) : List Char :=
  repAux pat rep s 0

/-- Embeds the parameter-substitution loop of `send_template_message`
(lines 142-144): `for i, param in enumerate(parameters, start): text =
text.replace(placeholder(i), param)`.  The parameter strings are the
values actually passed to `str.replace` (i.e. after the code's
`_(str(param),'ar')` preparation). -/
def renderFrom (start : Nat) (params : List (List Char)) (text : List Char) :
    List Char :=
  match params with
  | [] => text
  | p :: ps => renderFrom (start + 1) ps (replaceAll (phStr start) p text)

/-! ## Token view of template bodies -/

/-- A well-formed template body is an interleaving of literal text and
positional placeholders; `Tok` is one such piece. -/
inductive Tok where
  | lit : List Char → Tok
  | ph : Nat → Tok
deriving DecidableEq

/-- The character rendering of one template piece. -/
def Tok.flat : Tok → List Char
  | Tok.lit s => s
  | Tok.ph i => phStr i

/-- The character rendering of a whole template. -/
def flatten (ts : List Tok) : List Char :=
  ts.flatMap Tok.flat

/-- A token is brace-free when any literal text it carries contains no
opening brace, so no placeholder-shaped text hides inside literals. -/
def Tok.braceFree : Tok → Prop
  | Tok.lit s => ∀ c ∈ s, c ≠ '{'
  | Tok.ph _ => True

instance (t : Tok) : Decidable t.braceFree := by
  cases t <;> unfold Tok.braceFree <;> infer_instance

/-- One substitution step at the token level: every occurrence of
placeholder `i` becomes the token list `prep` (the parsed form of the
i-th parameter string); everything else is kept. -/
def substTok (i : Nat) (prep : List Tok) (t : Tok) : List Tok :=
  if t = Tok.ph i then prep else [t]

/-- Sequential substitution of the parameters `preps` for the
placeholders `start`, `start+1`, ..., mirroring the iteration order of
the replacement loop. -/
def substSeq (start : Nat) (preps : List (List Tok)) (toks : List Tok) :
    List Tok :=
  match preps with
  | [] => toks
  | p :: ps => substSeq (start + 1) ps (toks.flatMap (substTok start p))

/-- Direct description of positional substitution with plain-string
parameters: placeholder `j` becomes the j-th parameter when its index
falls within the supplied range, and survives untouched otherwise. -/
def substFrom (start : Nat) (params : List (List Char)) (t : Tok) : Tok :=
  match t with
  | Tok.ph j =>
    if start ≤ j ∧ j < start + params.length then
      Tok.lit (params.getD (j - start) [])
    else Tok.ph j
  | t => t

/-! ## Data model of the dispatch path -/

/-- The fields of a WhatsApp Notification rule consumed by the send
path.  Optional strings model Python truthiness: `none` stands for a
missing or falsy (empty) value. -/
structure Rule where
  disabled : Bool
  condition : Option (List Char)
  field_name : Option (List Char)
  template : List Char
  code : List Char
  content_type : Option (List Char)
  set_property_after_alert : Option (List Char)
  property_value : Option (List Char)
deriving DecidableEq

/-- The Evolution Phone Settings fields used to build request URLs. -/
structure EvoSettings where
  base_url : List Char
  instance_name : List Char
deriving DecidableEq

/-- The pieces of a parsed Evolution API response body that
`notify_evolution` reads: `key.id`, `message.key.id` and
`response.message`, each `none` when the nested lookup misses. -/
structure RespBody where
  key_id : Option (List Char)
  message_key_id : Option (List Char)
  response_message : Option (List Char)
deriving DecidableEq

/-- Outcome of the HTTP call in `notify_evolution`: either a parsed
response with its status code, or a raised exception
(`requestExn = true` for `requests.exceptions.RequestException`,
`false` for any other exception) carrying the exception text. -/
inductive HttpResult where
  | resp : Nat → RespBody → HttpResult
  | exn : Bool → List Char → HttpResult
deriving DecidableEq

/-- Reference to the triggering record: its doctype and name, as read
from `doc_data`. -/
structure DocRef where
  doctype : List Char
  name : List Char
deriving DecidableEq

/-- The slice of a docfield definition the write-back logic reads:
whether `df.fieldtype` belongs to `frappe.model.numeric_fieldtypes`. -/
structure FieldDef where
  isNumeric : Bool
deriving DecidableEq

/-- A value written back to the triggering record: the configured
property value either as the raw string or coerced to an integer. -/
inductive WBValue where
  | str : List Char → WBValue
  | int : Int → WBValue
deriving DecidableEq

/-- The WhatsApp Message record saved on a successful send (the fields
of the `new_doc` dict that vary per send). -/
structure SentMessage where
  message : Option (List Char)
  to_number : List Char
  message_id : List Char
  content_type : List Char
  template : List Char
  template_parameters : Option (List (List Char))
  reference : Option DocRef
deriving DecidableEq

/-- The WhatsApp Notification Log record written by the cleanup block
of `notify_evolution`: its `meta_data` fields. -/
structure EvoLog where
  template : List Char
  success : Bool
  response : Option RespBody
  error : Option (List Char)
  phone_number : List Char
  message : Option (List Char)
deriving DecidableEq

/-- The JSON payload posted to the Evolution API, one shape per
endpoint branch. -/
inductive EvoPayload where
  | sendText : List Char → List Char → EvoPayload
  | sendMedia : List Char → List Char → Option (List Char) →
      Option (List Char) → List Char → Option (List Char) → EvoPayload
deriving DecidableEq

/-- Everything `notify_evolution` does: the request it builds (URL and
payload), the records it creates, the optional write-back, and the
final value of its success flag. -/
structure EvoResult where
  url : List Char
  payload : EvoPayload
  content_type : List Char
  messages : List SentMessage
  logs : List EvoLog
  writeback : Option (DocRef × List Char × WBValue)
  success : Bool
deriving DecidableEq

/-- Embeds the attachment test of `notify_evolution` line 242:
`filename and filename.lower().endswith('.pdf')`. -/
def pdfEndsWith (filename : Option (List Char)) : Bool :=
  match filename with
  | none => false
  | some f => (".pdf".toList).isSuffixOf (f.map Char.toLower)

/-- Embeds the message-id extraction of `notify_evolution` lines
283-285: `key.id` with empty default, falling back to
`message.key.id` when the first lookup is falsy. -/
def extractMessageId (body : RespBody) : List Char :=
  let m1 := body.key_id.getD []
  if m1 = [] then body.message_key_id.getD [] else m1

/-- Embeds the write-back logic shared by `notify_evolution` (lines
310-324) and `notify` (lines 410-420): requires truthy `doc_data`,
configured property field and value, truthy doctype and name on the
record, and an existing docfield; a numeric fieldtype coerces the value
through `cint`, otherwise the raw string is written. -/
def computeWriteback (rule : Rule) (doc_data : Option DocRef)
    (df : Option FieldDef) : Option (DocRef × List Char × WBValue) :=
  match doc_data, rule.set_property_after_alert, rule.property_value with
  | some dd, some fieldname, some value =>
    if dd.doctype ≠ [] ∧ dd.name ≠ [] then
      match df with
      | some d =>
        some (dd, fieldname,
          if d.isNumeric then WBValue.int (cint value) else WBValue.str value)
      | none => none
    else none
  | _, _, _ => none

/-- Embeds `WhatsAppNotification.notify_evolution` (lines 220-361)
after the settings check: endpoint and payload selection by attachment
state, the HTTP call outcome `r`, the success branch (message record,
write-back), the failure and exception branches, and the cleanup-block
log entry.  Record persistence itself is assumed not to raise. -/
def notify_evolution (rule : Rule) (evo : EvoSettings)
    (phone_number : List Char) (message_text : Option (List Char))
    (attachment_url : Option (List Char)) (filename : Option (List Char))
    (doc_data : Option DocRef) (df : Option FieldDef)
    (parameters : Option (List (List Char))) (r : HttpResult) : EvoResult :=
  let sel : List Char × EvoPayload × List Char × Option (List Char) :=
    match attachment_url with
    | some media =>
      if pdfEndsWith filename then
        (evo.base_url ++ ("/message/sendMedia/".toList) ++ evo.instance_name,
         EvoPayload.sendMedia phone_number ("document".toList)
           (some ("application/pdf".toList)) message_text media filename,
         "document".toList, message_text)
      else
        (evo.base_url ++ ("/message/sendMedia/".toList) ++ evo.instance_name,
         EvoPayload.sendMedia phone_number ("image".toList) none
           message_text media none,
         "image".toList, message_text)
    | none =>
      let t := message_text.getD ("No Text".toList)
      (evo.base_url ++ ("/message/sendText/".toList) ++ evo.instance_name,
       EvoPayload.sendText phone_number t,
       "text".toList, some t)
  match sel with
  | (url, payload, content_type, eff_msg) =>
    match r with
    | HttpResult.exn isReq emsg =>
      let error_message :=
        if isReq then ("Connection error: ".toList) ++ emsg else emsg
      { url := url, payload := payload, content_type := content_type,
        messages := [],
        logs := [⟨rule.template, false, none, some error_message,
                  phone_number, eff_msg⟩],
        writeback := none, success := false }
    | HttpResult.resp status body =>
      if status = 200 ∨ status = 201 then
        { url := url, payload := payload, content_type := content_type,
          messages := [⟨eff_msg, phone_number, extractMessageId body,
                        content_type, rule.template, parameters, doc_data⟩],
          logs := [⟨rule.template, true, some body, none,
                    phone_number, eff_msg⟩],
          writeback := computeWriteback rule doc_data df,
          success := true }
      else
        { url := url, payload := payload, content_type := content_type,
          messages := [],
          logs := [⟨rule.template, false, none,
                    some (body.response_message.getD ("Unknown Error".toList)),
                    phone_number, eff_msg⟩],
          writeback := none, success := false }

/-- Inputs of `WhatsAppNotification.notify` that vary per call: the
recipient, the printable form of the template dict, and the component
parameter texts of `data["template"]["components"]`. -/
structure MetaData where
  to_number : List Char
  template_repr : List Char
  components : List (List (List Char))
deriving DecidableEq

/-- Outcome of the Meta-API call in `notify`: a response whose
`messages[0].id` lookup succeeded, or any raised exception (transport
failure, non-2xx status raised by `make_post_request`, or a malformed
success body) carrying the extracted error message. -/
inductive MetaHttpResult where
  | ok : List Char → List Char → MetaHttpResult
  | exn : List Char → MetaHttpResult
deriving DecidableEq

/-- The Notification Log entry written by the cleanup block of
`notify`: the raw response on success, an error dict on failure. -/
structure MetaLog where
  template : List Char
  meta_response : Option (List Char)
  meta_error : Option (List Char)
deriving DecidableEq

/-- Everything `notify` does: created records, optional write-back,
final success flag. -/
structure MetaResult where
  messages : List SentMessage
  logs : List MetaLog
  writeback : Option (DocRef × List Char × WBValue)
  success : Bool
deriving DecidableEq

/-- Embeds `WhatsAppNotification.notify` (lines 363-445): on a usable
response, create one WhatsApp Message record (content type defaulting
to text, parameters taken from the first component), apply the
write-back, and log the raw response; on any exception, create nothing
and log the error; either way exactly one log entry comes from the
cleanup block.  Record persistence itself is assumed not to raise. -/
def notify (rule : Rule) (data : MetaData) (doc_data : Option DocRef)
    (df : Option FieldDef) (r : MetaHttpResult) : MetaResult :=
  match r with
  | MetaHttpResult.exn emsg =>
    { messages := [], logs := [⟨rule.template, none, some emsg⟩],
      writeback := none, success := false }
  | MetaHttpResult.ok raw message_id =>
    let content_type := rule.content_type.getD ("text".toList)
    let parameters :=
      match data.components with
      | [] => none
      | c0 :: _ => some c0
    { messages := [⟨some data.template_repr, data.to_number, message_id,
                    content_type, rule.template, parameters, doc_data⟩],
      logs := [⟨rule.template, some raw, none⟩],
      writeback := computeWriteback rule doc_data df,
      success := true }

/-- Result of one `send_template_message` call: returned early without
any effect, aborted by `frappe.throw`, or reached the dispatch client
with the given dispatch result. -/
inductive SendOutcome where
  | skipped : SendOutcome
  | thrown : List Char → SendOutcome
  | dispatched : EvoResult → SendOutcome
deriving DecidableEq

/-- Embeds `WhatsAppNotification.send_template_message` (lines 91-218):
the disabled guard, the condition guard (`condEval` is the truthiness
of `frappe.safe_eval` on the rule's condition), phone resolution and
formatting, template existence, parameter substitution into the rule's
message body, and the final dispatch through `notify_evolution`.
`doc_phone` models `doc_data[field_name]` (`none` for a falsy value),
`params` the prepared parameter strings of the rule's field mappings,
and the attachment arguments the output of the attachment resolver. -/
def send_template_message (rule : Rule) (doc_phone : Option (List Char))
    (phone_no : Option (List Char)) (ignore_condition : Bool)
    (condEval : Bool) (template_found : Bool) (params : List (List Char))
    (attachment_url : Option (List Char)) (filename : Option (List Char))
    (doc_data : Option DocRef) (df : Option FieldDef) (evo : EvoSettings)
    (r : HttpResult) : SendOutcome :=
  if rule.disabled then SendOutcome.skipped
  else if rule.condition.isSome ∧ ignore_condition = false ∧ condEval = false
  then SendOutcome.skipped
  else
    let phone :=
      match rule.field_name with
      | some _ =>
        match phone_no with
        | some p => some p
        | none => doc_phone
      | none => phone_no
    match phone with
    | none => SendOutcome.thrown ("Phone number not found".toList)
    | some pn =>
      if template_found = false then
        SendOutcome.thrown ("Template not found".toList)
      else
        SendOutcome.dispatched
          (notify_evolution rule evo (format_number pn)
            (some (renderFrom 1 params rule.code)) attachment_url filename
            doc_data df
            (match params with | [] => none | _ => some params) r)

/-- WhatsApp Message records produced by one send. -/
def SendOutcome.sentMessages : SendOutcome → List SentMessage
  | SendOutcome.dispatched res => res.messages
  | _ => []

/-- Notification Log entries produced by one send. -/
def SendOutcome.notificationLogs : SendOutcome → List EvoLog
  | SendOutcome.dispatched res => res.logs
  | _ => []

/-- Write-back produced by one send. -/
def SendOutcome.writebackOf : SendOutcome → Option (DocRef × List Char × WBValue)
  | SendOutcome.dispatched res => res.writeback
  | _ => none

/-! ## Lemmas: decimal digits -/

theorem digChar_isDig (n : Nat) : isDig (digChar n) := by
  unfold digChar
  repeat' split
  all_goals decide

theorem digChar_toNat (n : Nat) (h : n < 10) : (digChar n).toNat = 48 + n := by
  interval_cases n <;> decide

theorem digChar_injOn (n m : Nat) (hn : n < 10) (hm : m < 10)
    (h : digChar n = digChar m) : n = m := by
  have := digChar_toNat n hn
  have := digChar_toNat m hm
  have : (digChar n).toNat = (digChar m).toNat := by rw [h]
  omega

theorem natDigitsAux_congr (f1 : Nat) : ∀ (f2 n : Nat), n < f1 → n < f2 →
    natDigitsAux f1 n = natDigitsAux f2 n := by
  induction f1 with
  | zero => intro f2 n h1 _; omega
  | succ f1 ih =>
    intro f2 n h1 h2
    cases f2 with
    | zero => omega
    | succ f2 =>
      unfold natDigitsAux
      by_cases h : n < 10
      · simp [h]
      · simp only [h, if_false]
        have hd : n / 10 < n := Nat.div_lt_self (by omega) (by omega)
        rw [ih f2 (n / 10) (by omega) (by omega)]

theorem natDigits_eq (n : Nat) :
    natDigits n =
      if n < 10 then [digChar n]
      else natDigits (n / 10) ++ [digChar (n % 10)] := by
  unfold natDigits
  conv_lhs => rw [natDigitsAux]
  by_cases h : n < 10
  · simp [h]
  · simp only [h, if_false]
    have hd : n / 10 < n := Nat.div_lt_self (by omega) (by omega)
    rw [natDigitsAux_congr n (n / 10 + 1) (n / 10) (by omega) (by omega)]

theorem natDigits_ne_nil (n : Nat) : natDigits n ≠ [] := by
  rw [natDigits_eq]
  by_cases h : n < 10 <;> simp [h]

theorem natDigits_isDig (n : Nat) : ∀ c ∈ natDigits n, isDig c := by
  induction n using Nat.strong_induction_on with
  | _ n ih =>
    rw [natDigits_eq]
    by_cases h : n < 10
    · simp only [h, if_true]
      intro c hc
      simp at hc
      subst hc
      exact digChar_isDig n
    · simp only [h, if_false]
      intro c hc
      rcases List.mem_append.mp hc with h1 | h1
      · exact ih (n / 10) (Nat.div_lt_self (by omega) (by omega)) c h1
      · simp at h1
        subst h1
        exact digChar_isDig (n % 10)

theorem digitsVal_natDigits_aux (n : Nat) : ∀ a : Nat,
    (natDigits n).foldl (fun a c => 10 * a + (c.toNat - 48)) a =
      a * 10 ^ (natDigits n).length + n := by
  induction n using Nat.strong_induction_on with
  | _ n ih =>
    intro a
    rw [natDigits_eq]
    by_cases h : n < 10
    · simp only [h, if_true, List.foldl_cons, List.foldl_nil, List.length_cons,
        List.length_nil]
      rw [digChar_toNat n h]
      omega
    · simp only [h, if_false, List.foldl_append, List.foldl_cons,
        List.foldl_nil, List.length_append, List.length_cons, List.length_nil]
      rw [ih (n / 10) (Nat.div_lt_self (by omega) (by omega)) a]
      rw [digChar_toNat (n % 10) (by omega)]
      rw [pow_succ]
      have h10 : 10 * (n / 10) + n % 10 = n := Nat.div_add_mod n 10
      set X := a * 10 ^ (natDigits (n / 10)).length with hX
      have : a * (10 ^ (natDigits (n / 10)).length * 10) = X * 10 := by
        rw [hX]; ring
      rw [this]
      omega

theorem digitsVal_natDigits (n : Nat) : digitsVal (natDigits n) = n := by
  unfold digitsVal
  rw [digitsVal_natDigits_aux n 0]
  omega

theorem natDigits_injective (n m : Nat) (h : natDigits n = natDigits m) :
    n = m := by
  have h1 := digitsVal_natDigits n
  have h2 := digitsVal_natDigits m
  rw [h] at h1
  omega

/-! ## Lemmas: the replacement scanner -/

theorem repAux_skip (pat rep : List Char) :
    ∀ (l s : List Char), repAux pat rep (l ++ s) l.length = repAux pat rep s 0 := by
  intro l
  induction l with
  | nil => intro s; rfl
  | cons c t ih =>
    intro s
    show repAux pat rep (c :: (t ++ s)) (t.length + 1) = _
    rw [repAux]
    exact ih s

theorem repAux_cons_neg (pat rep : List Char) (c : Char) (rest : List Char)
    (h : ¬ pat <+: (c :: rest)) :
    repAux pat rep (c :: rest) 0 = c :: repAux pat rep rest 0 := by
  rw [repAux]
  rw [if_neg]
  intro hc
  exact h hc.1

theorem replaceAll_head_eq (p : Char) (pt rep s : List Char) :
    replaceAll (p :: pt) rep ((p :: pt) ++ s) = rep ++ replaceAll (p :: pt) rep s := by
  show repAux (p :: pt) rep (p :: (pt ++ s)) 0 = _
  rw [repAux]
  rw [if_pos]
  · have hlen : (p :: pt).length - 1 = pt.length := by simp
    rw [hlen, repAux_skip]
    rfl
  · exact ⟨⟨s, by simp⟩, by simp⟩

theorem repAux_chunk (pat rep : List Char) :
    ∀ (chunk s : List Char),
      (∀ v, v <:+ chunk → v ≠ [] → ¬ pat <+: (v ++ s)) →
      repAux pat rep (chunk ++ s) 0 = chunk ++ repAux pat rep s 0 := by
  intro chunk
  induction chunk with
  | nil => intro s _; rfl
  | cons c t ih =>
    intro s H
    have h1 : ¬ pat <+: (c :: (t ++ s)) := by
      have := H (c :: t) (List.suffix_refl _) (by simp)
      simpa using this
    rw [List.cons_append, repAux_cons_neg pat rep c (t ++ s) h1]
    rw [ih s (fun v hv hne => H v (hv.trans (List.suffix_cons c t)) hne)]
    simp

/-- A pattern starting with an opening brace cannot match at a
character that is not an opening brace. -/
theorem headNe_no_match (i : Nat) (c : Char) (hc : c ≠ '{') (t : List Char) :
    ¬ phStr i <+: (c :: t) := by
  unfold phStr
  intro h
  rw [List.cons_prefix_cons] at h
  exact hc h.1.symm

/-- Two distinct digit strings followed by the closing braces never
match each other: the first mismatch is either inside the digits or
between a digit and a closing brace. -/
theorem digSeg_no_match (Di : List Char) :
    ∀ (Dj s : List Char), (∀ c ∈ Di, isDig c) → (∀ c ∈ Dj, isDig c) →
      Di ≠ Dj → ¬ (Di ++ ['}', '}'] <+: Dj ++ '}' :: '}' :: s) := by
  induction Di with
  | nil =>
    intro Dj s _ hDj hne h
    cases Dj with
    | nil => exact hne rfl
    | cons e Dj' =>
      simp only [List.nil_append, List.cons_append, List.cons_prefix_cons] at h
      have he : isDig e := hDj e (by simp)
      rw [h.1.symm] at he
      exact absurd he (by decide)
  | cons d Di' ih =>
    intro Dj s hDi hDj hne h
    cases Dj with
    | nil =>
      simp only [List.cons_append, List.nil_append, List.cons_prefix_cons] at h
      have hd : isDig d := hDi d (by simp)
      rw [h.1] at hd
      exact absurd hd (by decide)
    | cons e Dj' =>
      simp only [List.cons_append, List.cons_prefix_cons] at h
      obtain ⟨hde, h2⟩ := h
      subst hde
      have hne' : Di' ≠ Dj' := by
        intro hEq; exact hne (by rw [hEq])
      exact ih Dj' s (fun c hc => hDi c (by simp [hc]))
        (fun c hc => hDj c (by simp [hc])) hne' h2

/-- For `i ≠ j`, the placeholder of `i` does not match at the start of
the placeholder of `j`. -/
theorem phStr_cross_no_match (i j : Nat) (hij : i ≠ j) (s : List Char) :
    ¬ phStr i <+: (phStr j ++ s) := by
  unfold phStr
  intro h
  simp only [List.cons_append, List.cons_prefix_cons, List.append_assoc] at h
  obtain ⟨-, -, h⟩ := h
  have hne : natDigits i ≠ natDigits j := by
    intro hEq; exact hij (natDigits_injective i j hEq)
  refine digSeg_no_match (natDigits i) (natDigits j) s
    (natDigits_isDig i) (natDigits_isDig j) hne ?_
  simpa using h

/-- For `i ≠ j`, the placeholder of `i` matches nowhere inside the
rendered placeholder of `j`, whatever follows it. -/
theorem phChunk_no_match (i j : Nat) (hij : i ≠ j) (s : List Char) :
    ∀ v, v <:+ phStr j → v ≠ [] → ¬ phStr i <+: (v ++ s) := by
  intro v hv hne
  unfold phStr at hv
  rcases List.suffix_cons_iff.mp hv with h1 | h1
  · subst h1
    exact phStr_cross_no_match i j hij s
  rcases List.suffix_cons_iff.mp h1 with h2 | h2
  · subst h2
    intro h
    obtain ⟨d, D', hD⟩ := List.exists_cons_of_ne_nil (natDigits_ne_nil j)
    have hd : isDig d := natDigits_isDig j d (by rw [hD]; simp)
    rw [hD] at h
    unfold phStr at h
    simp only [List.cons_append, List.cons_prefix_cons] at h
    obtain ⟨-, h, -⟩ := h
    rw [h.symm] at hd
    exact absurd hd (by decide)
  · obtain ⟨c, v', hcv⟩ := List.exists_cons_of_ne_nil hne
    subst hcv
    have hcmem : c ∈ natDigits j ++ ['}', '}'] := h2.subset (by simp)
    have hcne : c ≠ '{' := by
      rcases List.mem_append.mp hcmem with h3 | h3
      · have hd := natDigits_isDig j c h3
        intro hEq
        rw [hEq] at hd
        exact absurd hd (by decide)
      · simp at h3
        subst h3
        decide
    rw [List.cons_append]
    exact headNe_no_match i c hcne (v' ++ s)

/-- Literal text without opening braces admits no placeholder match
starting inside it, whatever follows it. -/
theorem litChunk_no_match (i : Nat) (l : List Char) (hl : ∀ c ∈ l, c ≠ '{')
    (s : List Char) : ∀ v, v <:+ l → v ≠ [] → ¬ phStr i <+: (v ++ s) := by
  intro v hv hne
  obtain ⟨c, v', hcv⟩ := List.exists_cons_of_ne_nil hne
  subst hcv
  have hc : c ≠ '{' := hl c (hv.subset (by simp))
  rw [List.cons_append]
  exact headNe_no_match i c hc (v' ++ s)

/-! ## Lemmas: substitution over token templates -/

theorem flatten_cons (t : Tok) (ts : List Tok) :
    flatten (t :: ts) = t.flat ++ flatten ts := by
  simp [flatten]

theorem flatten_append (a b : List Tok) :
    flatten (a ++ b) = flatten a ++ flatten b := by
  simp [flatten]

/-- One pass of the scanner over a rendered template replaces exactly
the occurrences of placeholder `i`, token-wise. -/
theorem replaceAll_flatten_step (i : Nat) (prep : List Tok) :
    ∀ (toks : List Tok), (∀ t ∈ toks, t.braceFree) →
      replaceAll (phStr i) (flatten prep) (flatten toks) =
        flatten (toks.flatMap (substTok i prep)) := by
  intro toks
  induction toks with
  | nil => intro _; rfl
  | cons t rest ih =>
    intro hts
    have hrest : ∀ u ∈ rest, u.braceFree :=
      fun u hu => hts u (List.mem_cons_of_mem t hu)
    cases t with
    | lit l =>
      have hl : ∀ c ∈ l, c ≠ '{' := hts (Tok.lit l) (by simp)
      rw [flatten_cons]
      have hB : (Tok.lit l :: rest).flatMap (substTok i prep) =
          Tok.lit l :: rest.flatMap (substTok i prep) := by
        simp [substTok]
      rw [hB, flatten_cons]
      show repAux (phStr i) (flatten prep) (l ++ flatten rest) 0 =
        l ++ flatten (rest.flatMap (substTok i prep))
      rw [repAux_chunk (phStr i) (flatten prep) l (flatten rest)
        (litChunk_no_match i l hl (flatten rest))]
      exact congrArg (l ++ ·) (ih hrest)
    | ph j =>
      by_cases hj : j = i
      · subst hj
        rw [flatten_cons]
        have hB : (Tok.ph j :: rest).flatMap (substTok j prep) =
            prep ++ rest.flatMap (substTok j prep) := by
          simp [substTok]
        rw [hB, flatten_append]
        show replaceAll ('{' :: ('{' :: (natDigits j ++ ['}', '}'])))
            (flatten prep)
            (('{' :: ('{' :: (natDigits j ++ ['}', '}']))) ++ flatten rest) =
          flatten prep ++ flatten (rest.flatMap (substTok j prep))
        rw [replaceAll_head_eq '{' ('{' :: (natDigits j ++ ['}', '}']))
          (flatten prep) (flatten rest)]
        exact congrArg (flatten prep ++ ·) (ih hrest)
      · rw [flatten_cons]
        have hB : (Tok.ph j :: rest).flatMap (substTok i prep) =
            Tok.ph j :: rest.flatMap (substTok i prep) := by
          simp [substTok, hj]
        rw [hB, flatten_cons]
        show repAux (phStr i) (flatten prep) (phStr j ++ flatten rest) 0 =
          phStr j ++ flatten (rest.flatMap (substTok i prep))
        rw [repAux_chunk (phStr i) (flatten prep) (phStr j) (flatten rest)
          (phChunk_no_match i j (fun h => hj h.symm) (flatten rest))]
        exact congrArg (phStr j ++ ·) (ih hrest)

/-- The replacement loop over a rendered template equals sequential
token-level substitution: parameters are parsed as token lists, so a
parameter may itself contain later placeholders, which the later loop
iterations then substitute. -/
theorem renderFrom_flatten (preps : List (List Tok)) :
    ∀ (start : Nat) (toks : List Tok),
      (∀ t ∈ toks, t.braceFree) →
      (∀ p ∈ preps, ∀ t ∈ p, t.braceFree) →
      renderFrom start (preps.map flatten) (flatten toks) =
        flatten (substSeq start preps toks) := by
  induction preps with
  | nil => intro start toks _ _; rfl
  | cons p ps ih =>
    intro start toks htoks hpreps
    show renderFrom (start + 1) (ps.map flatten)
      (replaceAll (phStr start) (flatten p) (flatten toks)) = _
    rw [replaceAll_flatten_step start p toks htoks]
    have hbind : ∀ t ∈ toks.flatMap (substTok start p), t.braceFree := by
      intro t ht
      obtain ⟨u, hu, htu⟩ := List.mem_flatMap.mp ht
      unfold substTok at htu
      by_cases he : u = Tok.ph start
      · rw [if_pos he] at htu
        exact hpreps p (by simp) t htu
      · rw [if_neg he] at htu
        simp at htu
        subst htu
        exact htoks _ hu
    have hps : ∀ q ∈ ps, ∀ t ∈ q, t.braceFree :=
      fun q hq => hpreps q (List.mem_cons_of_mem p hq)
    exact ih (start + 1) (toks.flatMap (substTok start p)) hbind hps

/-- Sequential substitution with plain-string parameters collapses to
the direct positional description `substFrom`. -/
theorem substSeq_lits (params : List (List Char)) :
    ∀ (start : Nat) (toks : List Tok),
      substSeq start (params.map (fun p => [Tok.lit p])) toks =
        toks.map (substFrom start params) := by
  induction params with
  | nil =>
    intro start toks
    show toks = toks.map (substFrom start [])
    have hpt : ∀ t, substFrom start [] t = t := by
      intro t
      cases t with
      | lit l => rfl
      | ph j =>
        show (if start ≤ j ∧ j < start + ([] : List (List Char)).length
            then Tok.lit (([] : List (List Char)).getD (j - start) [])
            else Tok.ph j) = Tok.ph j
        rw [if_neg (by simp only [List.length_nil]; omega)]
    rw [List.map_congr_left (fun t _ => hpt t)]
    simp
  | cons p ps ih =>
    intro start toks
    show substSeq (start + 1) (ps.map (fun q => [Tok.lit q]))
      (toks.flatMap (substTok start [Tok.lit p])) = _
    have hsingle : toks.flatMap (substTok start [Tok.lit p]) =
        toks.map (fun t => if t = Tok.ph start then Tok.lit p else t) := by
      induction toks with
      | nil => rfl
      | cons t ts iht =>
        rw [List.flatMap_cons, List.map_cons, iht]
        show (if t = Tok.ph start then [Tok.lit p] else [t]) ++ _ = _
        by_cases he : t = Tok.ph start
        · rw [if_pos he, if_pos he]
          rfl
        · rw [if_neg he, if_neg he]
          rfl
    rw [hsingle, ih (start + 1), List.map_map]
    apply List.map_congr_left
    intro t _
    show substFrom (start + 1) ps (if t = Tok.ph start then Tok.lit p else t) =
      substFrom start (p :: ps) t
    cases t with
    | lit l =>
      rw [if_neg (by simp)]
      rfl
    | ph j =>
      by_cases hj : j = start
      · rw [hj, if_pos rfl]
        show substFrom (start + 1) ps (Tok.lit p) =
          (if start ≤ start ∧ start < start + (p :: ps).length
            then Tok.lit ((p :: ps).getD (start - start) [])
            else Tok.ph start)
        rw [if_pos (by simp only [List.length_cons]; omega)]
        have h0 : start - start = 0 := by omega
        rw [h0, List.getD_cons_zero]
        rfl
      · rw [if_neg (by simp [hj])]
        show (if start + 1 ≤ j ∧ j < (start + 1) + ps.length
            then Tok.lit (ps.getD (j - (start + 1)) []) else Tok.ph j) =
          (if start ≤ j ∧ j < start + (p :: ps).length
            then Tok.lit ((p :: ps).getD (j - start) []) else Tok.ph j)
        by_cases hc : start + 1 ≤ j ∧ j < start + 1 + ps.length
        · rw [if_pos hc, if_pos (by simp only [List.length_cons]; omega)]
          have hjs : j - start = (j - (start + 1)) + 1 := by omega
          rw [hjs, List.getD_cons_succ]
        · rw [if_neg hc, if_neg (by simp only [List.length_cons]; omega)]

/-- The two datetime bounds of the scheduler query select exactly the
records whose date field lies on the reference day. -/
theorem window_iff (today d : Int) (isAfter : Bool) (m : Moment) :
    inQueryWindow today d isAfter m ↔ m.day = referenceDay today d isAfter := by
  obtain ⟨day, sec, hs⟩ := m
  unfold inQueryWindow tsLe
  dsimp only
  constructor
  · rintro ⟨h1 | ⟨h1a, h1b⟩, h2 | ⟨h2a, h2b⟩⟩ <;> omega
  · intro h
    exact ⟨Or.inr ⟨h.symm, by omega⟩, Or.inr ⟨h, by omega⟩⟩

/-! ## Claims -/

/-- C1: every dispatch attempt that reaches the dispatch client
(`notify_evolution` or `notify`) creates exactly one Notification Log
entry whether the send succeeds or fails, and exactly one WhatsApp
Message record exactly when it succeeds. -/
theorem claim_C1_dispatch_logging_invariant (rule : Rule) (evo : EvoSettings)
    (phone : List Char) (msg att fn : Option (List Char)) (dd : Option DocRef)
    (df : Option FieldDef) (pars : Option (List (List Char))) (r : HttpResult)
    (data : MetaData) (dd2 : Option DocRef) (df2 : Option FieldDef)
    (r2 : MetaHttpResult) :
    ((notify_evolution rule evo phone msg att fn dd df pars r).logs.length = 1 ∧
      (notify_evolution rule evo phone msg att fn dd df pars r).messages.length =
        (if (notify_evolution rule evo phone msg att fn dd df pars r).success
          then 1 else 0)) ∧
    ((notify rule data dd2 df2 r2).logs.length = 1 ∧
      (notify rule data dd2 df2 r2).messages.length =
        (if (notify rule data dd2 df2 r2).success then 1 else 0)) := by
  refine ⟨?_, ?_⟩
  · unfold notify_evolution
    cases att with
    | none =>
      cases r with
      | exn b m => simp
      | resp st body => by_cases h : st = 200 ∨ st = 201 <;> simp [h]
    | some a =>
      by_cases hp : pdfEndsWith fn
      · cases r with
        | exn b m => simp [hp]
        | resp st body => by_cases h : st = 200 ∨ st = 201 <;> simp [hp, h]
      · cases r with
        | exn b m => simp [hp]
        | resp st body => by_cases h : st = 200 ∨ st = 201 <;> simp [hp, h]
  · cases r2 with
    | exn m => simp [notify]
    | ok raw mid => simp [notify]

/-- C2: an Evolution dispatch whose HTTP status is neither 200 nor 201
creates no WhatsApp Message record and exactly one failure log entry
whose error is the body's nested `response.message`, defaulting to
"Unknown Error" when absent. -/
theorem claim_C2_evolution_failure_path (rule : Rule) (evo : EvoSettings)
    (phone : List Char) (msg att fn : Option (List Char)) (dd : Option DocRef)
    (df : Option FieldDef) (pars : Option (List (List Char))) (status : Nat)
    (body : RespBody) (h200 : status ≠ 200) (h201 : status ≠ 201) :
    (notify_evolution rule evo phone msg att fn dd df pars
        (HttpResult.resp status body)).messages = [] ∧
    (notify_evolution rule evo phone msg att fn dd df pars
        (HttpResult.resp status body)).logs.length = 1 ∧
    ∀ l ∈ (notify_evolution rule evo phone msg att fn dd df pars
        (HttpResult.resp status body)).logs,
      l.success = false ∧
      l.error = some (body.response_message.getD ("Unknown Error".toList)) := by
  have h : ¬ (status = 200 ∨ status = 201) := by
    rintro (h | h) <;> [exact h200 h; exact h201 h]
  unfold notify_evolution
  cases att with
  | none => simp [h]
  | some a => by_cases hp : pdfEndsWith fn <;> simp [hp, h]

/-- C2 witness: a concrete 500 response with a body error message. -/
theorem claim_C2_witness :
    (notify_evolution ⟨false, none, none, [], [], none, none, none⟩
        ⟨"b".toList, "i".toList⟩ ("491".toList) none none none none none none
        (HttpResult.resp 500 ⟨none, none, some ("boom".toList)⟩)).messages = [] ∧
    (notify_evolution ⟨false, none, none, [], [], none, none, none⟩
        ⟨"b".toList, "i".toList⟩ ("491".toList) none none none none none none
        (HttpResult.resp 500 ⟨none, none, some ("boom".toList)⟩)).logs.length = 1 ∧
    ∀ l ∈ (notify_evolution ⟨false, none, none, [], [], none, none, none⟩
        ⟨"b".toList, "i".toList⟩ ("491".toList) none none none none none none
        (HttpResult.resp 500 ⟨none, none, some ("boom".toList)⟩)).logs,
      l.success = false ∧
      l.error = some ((some ("boom".toList)).getD ("Unknown Error".toList)) :=
  claim_C2_evolution_failure_path _ _ _ _ _ _ _ _ _ 500 _
    (by decide) (by decide)

/-- C3: the scheduler window is exactly the day `today` plus the
configured offset, negated for "Days After" rules; in particular a
"Days Before" = 3 rule selects the records whose date field falls on
`today + 3` and no others (so `today + 4` is excluded). -/
theorem claim_C3_scheduler_window (today d : Int) (isAfter : Bool) (m : Moment) :
    (inQueryWindow today d isAfter m ↔
      m.day = today + (if isAfter then -d else d)) ∧
    (inQueryWindow today 3 false m ↔ m.day = today + 3) := by
  constructor
  · exact window_iff today d isAfter m
  · have h := window_iff today 3 false m
    unfold referenceDay at h
    simpa using h

/-- C4: with brace-free parameter strings, the replacement loop
substitutes the i-th parameter for placeholder `i` whenever
`1 ≤ i ≤ params.length`, and leaves every other placeholder literally
in place (`substFrom` maps exactly the in-range placeholders to their
parameter and keeps the rest): with m parameters and placeholders
1..k, all of 1..min(m,k) are replaced and (m+1)..k survive verbatim,
with no error. -/
theorem claim_C4_positional_substitution (toks : List Tok)
    (params : List (List Char)) (htoks : ∀ t ∈ toks, t.braceFree)
    (hparams : ∀ p ∈ params, ∀ c ∈ p, c ≠ '{') :
    renderFrom 1 params (flatten toks) =
      flatten (toks.map (substFrom 1 params)) := by
  have hp : ∀ q ∈ params.map (fun p => [Tok.lit p]), ∀ t ∈ q, t.braceFree := by
    intro q hq t ht
    obtain ⟨p, hpmem, rfl⟩ := List.mem_map.mp hq
    simp at ht
    subst ht
    exact hparams p hpmem
  have h1 := renderFrom_flatten (params.map fun p => [Tok.lit p]) 1 toks htoks hp
  rw [substSeq_lits params 1 toks] at h1
  have h2 : (params.map fun p => [Tok.lit p]).map flatten = params := by
    rw [List.map_map]
    have hpt : ∀ p ∈ params, (flatten ∘ fun q => [Tok.lit q]) p = p := by
      intro p _
      show flatten [Tok.lit p] = p
      simp [flatten, Tok.flat]
    rw [List.map_congr_left hpt]
    simp
  rw [h2] at h1
  exact h1

/-- C4 witness: template with placeholders 1..3 and two parameters:
1 and 2 are replaced, 3 survives verbatim. -/
theorem claim_C4_witness :
    renderFrom 1 ["Ann".toList, "7".toList]
        (flatten [Tok.lit ("Hi ".toList), Tok.ph 1, Tok.lit (" x ".toList),
          Tok.ph 2, Tok.ph 3]) =
      flatten ([Tok.lit ("Hi ".toList), Tok.ph 1, Tok.lit (" x ".toList),
          Tok.ph 2, Tok.ph 3].map (substFrom 1 ["Ann".toList, "7".toList])) :=
  claim_C4_positional_substitution _ _ (by decide) (by decide)

/-- C5: a rule whose condition evaluates falsy (and is not overridden)
makes `send_template_message` return before dispatch: no WhatsApp
Message, no Notification Log entry, no write-back. -/
theorem claim_C5_false_condition_skips (rule : Rule) (c : List Char)
    (hcond : rule.condition = some c) (doc_phone phone_no : Option (List Char))
    (template_found : Bool) (params : List (List Char))
    (att fn : Option (List Char)) (dd : Option DocRef) (df : Option FieldDef)
    (evo : EvoSettings) (r : HttpResult) :
    send_template_message rule doc_phone phone_no false false template_found
        params att fn dd df evo r = SendOutcome.skipped ∧
    (send_template_message rule doc_phone phone_no false false template_found
        params att fn dd df evo r).sentMessages = [] ∧
    (send_template_message rule doc_phone phone_no false false template_found
        params att fn dd df evo r).notificationLogs = [] ∧
    (send_template_message rule doc_phone phone_no false false template_found
        params att fn dd df evo r).writebackOf = none := by
  have hskip : send_template_message rule doc_phone phone_no false false
      template_found params att fn dd df evo r = SendOutcome.skipped := by
    unfold send_template_message
    by_cases hd : rule.disabled
    · rw [if_pos hd]
    · rw [if_neg hd, if_pos ⟨by rw [hcond]; rfl, rfl, rfl⟩]
  refine ⟨hskip, ?_, ?_, ?_⟩ <;> rw [hskip] <;> rfl

/-- C5 witness: a concrete enabled rule with a condition and a falsy
evaluation. -/
theorem claim_C5_witness :
    send_template_message ⟨false, some ("doc.x".toList), none, [], [], none,
        none, none⟩ none (some ("1".toList)) false false true [] none none
        none none ⟨"b".toList, "i".toList⟩
        (HttpResult.resp 200 ⟨none, none, none⟩) = SendOutcome.skipped ∧
    (send_template_message ⟨false, some ("doc.x".toList), none, [], [], none,
        none, none⟩ none (some ("1".toList)) false false true [] none none
        none none ⟨"b".toList, "i".toList⟩
        (HttpResult.resp 200 ⟨none, none, none⟩)).sentMessages = [] ∧
    (send_template_message ⟨false, some ("doc.x".toList), none, [], [], none,
        none, none⟩ none (some ("1".toList)) false false true [] none none
        none none ⟨"b".toList, "i".toList⟩
        (HttpResult.resp 200 ⟨none, none, none⟩)).notificationLogs = [] ∧
    (send_template_message ⟨false, some ("doc.x".toList), none, [], [], none,
        none, none⟩ none (some ("1".toList)) false false true [] none none
        none none ⟨"b".toList, "i".toList⟩
        (HttpResult.resp 200 ⟨none, none, none⟩)).writebackOf = none :=
  claim_C5_false_condition_skips _ ("doc.x".toList) rfl _ _ _ _ _ _ _ _ _ _

/-- C6 counterexample: the claim asserts the document-media and
image-media endpoints are distinct, but the code posts both media
shapes to the same `sendMedia` URL: at identical settings, a `.pdf`
attachment and a `.jpg` attachment produce equal request URLs. -/
theorem claim_C6_counterexample :
    (notify_evolution ⟨false, none, none, [], [], none, none, none⟩
        ⟨"b".toList, "i".toList⟩ ("491".toList) none (some ("m".toList))
        (some ("a.pdf".toList)) none none none
        (HttpResult.resp 200 ⟨none, none, none⟩)).url =
    (notify_evolution ⟨false, none, none, [], [], none, none, none⟩
        ⟨"b".toList, "i".toList⟩ ("491".toList) none (some ("m".toList))
        (some ("a.jpg".toList)) none none none
        (HttpResult.resp 200 ⟨none, none, none⟩)).url := by decide

/-- C6 (amended): no attachment posts to the text endpoint with a
text payload; an attachment whose lowercased filename ends in ".pdf"
posts a document payload (mimetype application/pdf, caption, media,
fileName) and any other attachment an image payload (caption, media),
both to the one shared media endpoint; the media endpoint differs from
the text endpoint. -/
theorem claim_C6_amended_endpoint_selection (rule : Rule) (evo : EvoSettings)
    (phone : List Char) (msg : Option (List Char)) (att fn : Option (List Char))
    (dd : Option DocRef) (df : Option FieldDef)
    (pars : Option (List (List Char))) (r : HttpResult) :
    (att = none →
      (notify_evolution rule evo phone msg att fn dd df pars r).url =
        evo.base_url ++ ("/message/sendText/".toList) ++ evo.instance_name ∧
      (notify_evolution rule evo phone msg att fn dd df pars r).payload =
        EvoPayload.sendText phone (msg.getD ("No Text".toList))) ∧
    (∀ a, att = some a →
      (notify_evolution rule evo phone msg att fn dd df pars r).url =
        evo.base_url ++ ("/message/sendMedia/".toList) ++ evo.instance_name ∧
      (pdfEndsWith fn = true →
        (notify_evolution rule evo phone msg att fn dd df pars r).payload =
          EvoPayload.sendMedia phone ("document".toList)
            (some ("application/pdf".toList)) msg a fn) ∧
      (pdfEndsWith fn = false →
        (notify_evolution rule evo phone msg att fn dd df pars r).payload =
          EvoPayload.sendMedia phone ("image".toList) none msg a none)) ∧
    evo.base_url ++ ("/message/sendText/".toList) ++ evo.instance_name ≠
      evo.base_url ++ ("/message/sendMedia/".toList) ++ evo.instance_name := by
  refine ⟨?_, ?_, ?_⟩
  · rintro rfl
    unfold notify_evolution
    cases r with
    | exn b m => exact ⟨rfl, rfl⟩
    | resp st body =>
      by_cases h : st = 200 ∨ st = 201 <;> simp [h]
  · rintro a rfl
    unfold notify_evolution
    by_cases hp : pdfEndsWith fn
    · cases r with
      | exn b m => refine ⟨by simp [hp], fun _ => by simp [hp], fun hq => ?_⟩
                   · rw [hp] at hq; cases hq
      | resp st body =>
        by_cases h : st = 200 ∨ st = 201
        · refine ⟨by simp [hp, h], fun _ => by simp [hp, h], fun hq => ?_⟩
          rw [hp] at hq; cases hq
        · refine ⟨by simp [hp, h], fun _ => by simp [hp, h], fun hq => ?_⟩
          rw [hp] at hq; cases hq
    · have hp' : pdfEndsWith fn = false := by
        cases hq : pdfEndsWith fn
        · rfl
        · exact absurd hq hp
      cases r with
      | exn b m =>
        refine ⟨by simp [hp'], fun hq => ?_, fun _ => by simp [hp']⟩
        rw [hp'] at hq; cases hq
      | resp st body =>
        by_cases h : st = 200 ∨ st = 201
        · refine ⟨by simp [hp', h], fun hq => ?_, fun _ => by simp [hp', h]⟩
          rw [hp'] at hq; cases hq
        · refine ⟨by simp [hp', h], fun hq => ?_, fun _ => by simp [hp', h]⟩
          rw [hp'] at hq; cases hq
  · intro h
    have hlen := congrArg List.length h
    simp only [List.length_append] at hlen
    have h1 : ("/message/sendText/".toList).length = 18 := by decide
    have h2 : ("/message/sendMedia/".toList).length = 19 := by decide
    omega

/-- C6 amended witness: concrete pdf attachment goes to the media URL
with a document payload. -/
theorem claim_C6_amended_witness :
    (notify_evolution ⟨false, none, none, [], [], none, none, none⟩
        ⟨"b".toList, "i".toList⟩ ("491".toList) none (some ("m".toList))
        (some ("a.pdf".toList)) none none none
        (HttpResult.resp 200 ⟨none, none, none⟩)).url =
      ("b".toList) ++ ("/message/sendMedia/".toList) ++ ("i".toList) ∧
    (notify_evolution ⟨false, none, none, [], [], none, none, none⟩
        ⟨"b".toList, "i".toList⟩ ("491".toList) none (some ("m".toList))
        (some ("a.pdf".toList)) none none none
        (HttpResult.resp 200 ⟨none, none, none⟩)).payload =
      EvoPayload.sendMedia ("491".toList) ("document".toList)
        (some ("application/pdf".toList)) none ("m".toList)
        (some ("a.pdf".toList)) := by
  have h := (claim_C6_amended_endpoint_selection
    ⟨false, none, none, [], [], none, none, none⟩ ⟨"b".toList, "i".toList⟩
    ("491".toList) none (some ("m".toList)) (some ("a.pdf".toList)) none none
    none (HttpResult.resp 200 ⟨none, none, none⟩)).2.1 ("m".toList) rfl
  exact ⟨h.1, h.2.1 (by decide)⟩

/-- C7: on a successful send with a configured write-back whose target
docfield is numeric, both backends persist the property value coerced
to an integer through `cint`. -/
theorem claim_C7_numeric_writeback_coercion (rule : Rule) (f v : List Char)
    (hf : rule.set_property_after_alert = some f)
    (hv : rule.property_value = some v) (dd : DocRef) (hdt : dd.doctype ≠ [])
    (hdn : dd.name ≠ []) (fd : FieldDef) (hnum : fd.isNumeric = true)
    (evo : EvoSettings) (phone : List Char) (msg att fn : Option (List Char))
    (pars : Option (List (List Char))) (status : Nat) (body : RespBody)
    (hst : status = 200 ∨ status = 201) (data : MetaData) (raw mid : List Char) :
    (notify_evolution rule evo phone msg att fn (some dd) (some fd) pars
        (HttpResult.resp status body)).writeback =
      some (dd, f, WBValue.int (cint v)) ∧
    (notify rule data (some dd) (some fd)
        (MetaHttpResult.ok raw mid)).writeback =
      some (dd, f, WBValue.int (cint v)) := by
  have hwb : computeWriteback rule (some dd) (some fd) =
      some (dd, f, WBValue.int (cint v)) := by
    unfold computeWriteback
    rw [hf, hv]
    dsimp only
    rw [if_pos ⟨hdt, hdn⟩]
    simp [hnum]
  constructor
  · unfold notify_evolution
    cases att with
    | none => simp [hst, hwb]
    | some a => by_cases hp : pdfEndsWith fn <;> simp [hp, hst, hwb]
  · unfold notify
    simpa using hwb

/-- C7 witness: the configured string "5" is written back as the
integer 5. -/
theorem claim_C7_witness :
    (notify_evolution ⟨false, none, none, [], [], none, some ("seen".toList),
        some ("5".toList)⟩ ⟨"b".toList, "i".toList⟩ ("491".toList) none none
        none (some ⟨"Task".toList, "T1".toList⟩) (some ⟨true⟩) none
        (HttpResult.resp 200 ⟨none, none, none⟩)).writeback =
      some (⟨"Task".toList, "T1".toList⟩, "seen".toList, WBValue.int 5) ∧
    (notify ⟨false, none, none, [], [], none, some ("seen".toList),
        some ("5".toList)⟩ ⟨"491".toList, "tpl".toList, []⟩
        (some ⟨"Task".toList, "T1".toList⟩) (some ⟨true⟩)
        (MetaHttpResult.ok ("raw".toList) ("id1".toList))).writeback =
      some (⟨"Task".toList, "T1".toList⟩, "seen".toList, WBValue.int 5) := by
  have h := claim_C7_numeric_writeback_coercion
    ⟨false, none, none, [], [], none, some ("seen".toList), some ("5".toList)⟩
    ("seen".toList) ("5".toList) rfl rfl ⟨"Task".toList, "T1".toList⟩
    (by decide) (by decide) ⟨true⟩ rfl ⟨"b".toList, "i".toList⟩ ("491".toList)
    none none none none 200 ⟨none, none, none⟩ (Or.inl rfl)
    ⟨"491".toList, "tpl".toList, []⟩ ("raw".toList) ("id1".toList)
  exact ⟨h.1.trans (by decide), h.2.trans (by decide)⟩

/-- C8: the phone formatter removes the leading character exactly when
the input starts with a plus sign and otherwise returns the input
unchanged, with no further validation. -/
theorem claim_C8_phone_formatting (number : List Char) :
    format_number number =
      (if number.head? = some '+' then number.tail else number) := by
  cases number with
  | nil => rfl
  | cons c t =>
    unfold format_number
    by_cases hc : c = '+'
    · subst hc
      rw [if_pos (by simp), if_pos (by simp)]
      rfl
    · rw [if_neg (by simp [hc]), if_neg (by simp [hc])]

/-- C9: the replacement loop rewrites every occurrence of a repeated
placeholder, and because iterations run for i = 1, 2, ... in order, a
substituted parameter that itself contains a later placeholder has that
placeholder replaced by the later iteration: the loop equals sequential
token-level substitution `substSeq`, whose step replaces all
occurrences at once and whose recursion processes parameters'
own higher-indexed placeholders in later steps. -/
theorem claim_C9_repeated_and_cascading (toks : List Tok)
    (preps : List (List Tok)) (htoks : ∀ t ∈ toks, t.braceFree)
    (hpreps : ∀ p ∈ preps, ∀ t ∈ p, t.braceFree) :
    renderFrom 1 (preps.map flatten) (flatten toks) =
      flatten (substSeq 1 preps toks) :=
  renderFrom_flatten preps 1 toks htoks hpreps

/-- C9 witness: placeholder 1 occurs twice and its parameter contains
placeholder 2, which the second iteration then replaces in both copies. -/
theorem claim_C9_witness :
    renderFrom 1 ([[Tok.lit ("a".toList), Tok.ph 2], [Tok.lit ("B".toList)]].map
        flatten) (flatten [Tok.ph 1, Tok.lit ("-".toList), Tok.ph 1]) =
      flatten (substSeq 1 [[Tok.lit ("a".toList), Tok.ph 2],
        [Tok.lit ("B".toList)]] [Tok.ph 1, Tok.lit ("-".toList), Tok.ph 1]) :=
  claim_C9_repeated_and_cascading _ _ (by decide) (by decide)

/-- C10: a disabled rule makes `send_template_message` return
immediately, whatever the condition evaluation, HTTP outcome or other
inputs would have been: no record, no log entry, no write-back. -/
theorem claim_C10_disabled_rule_inert (rule : Rule) (hdis : rule.disabled = true)
    (doc_phone phone_no : Option (List Char)) (ignore_condition condEval : Bool)
    (template_found : Bool) (params : List (List Char))
    (att fn : Option (List Char)) (dd : Option DocRef) (df : Option FieldDef)
    (evo : EvoSettings) (r : HttpResult) :
    send_template_message rule doc_phone phone_no ignore_condition condEval
        template_found params att fn dd df evo r = SendOutcome.skipped ∧
    (send_template_message rule doc_phone phone_no ignore_condition condEval
        template_found params att fn dd df evo r).sentMessages = [] ∧
    (send_template_message rule doc_phone phone_no ignore_condition condEval
        template_found params att fn dd df evo r).notificationLogs = [] ∧
    (send_template_message rule doc_phone phone_no ignore_condition condEval
        template_found params att fn dd df evo r).writebackOf = none := by
  have hskip : send_template_message rule doc_phone phone_no ignore_condition
      condEval template_found params att fn dd df evo r =
      SendOutcome.skipped := by
    unfold send_template_message
    rw [hdis]
    rfl
  refine ⟨hskip, ?_, ?_, ?_⟩ <;> rw [hskip] <;> rfl

/-- C10 witness: a concrete disabled rule produces no effect even with
a would-be-true condition and a would-be-successful response. -/
theorem claim_C10_witness :
    send_template_message ⟨true, some ("doc.x".toList), none, [], [], none,
        none, none⟩ none (some ("1".toList)) false true true [] none none
        none none ⟨"b".toList, "i".toList⟩
        (HttpResult.resp 200 ⟨none, none, none⟩) = SendOutcome.skipped ∧
    (send_template_message ⟨true, some ("doc.x".toList), none, [], [], none,
        none, none⟩ none (some ("1".toList)) false true true [] none none
        none none ⟨"b".toList, "i".toList⟩
        (HttpResult.resp 200 ⟨none, none, none⟩)).sentMessages = [] ∧
    (send_template_message ⟨true, some ("doc.x".toList), none, [], [], none,
        none, none⟩ none (some ("1".toList)) false true true [] none none
        none none ⟨"b".toList, "i".toList⟩
        (HttpResult.resp 200 ⟨none, none, none⟩)).notificationLogs = [] ∧
    (send_template_message ⟨true, some ("doc.x".toList), none, [], [], none,
        none, none⟩ none (some ("1".toList)) false true true [] none none
        none none ⟨"b".toList, "i".toList⟩
        (HttpResult.resp 200 ⟨none, none, none⟩)).writebackOf = none :=
  claim_C10_disabled_rule_inert _ rfl _ _ _ _ _ _ _ _ _ _ _ _

end FrappeWhatsapp
